import Mathlib

/-!
Verification of the RPi-AES67 receiver/sender core against its
natural-language specification.  The definitions below are shallow
embeddings of the C++ sources in `src/`: machine integers become `Nat`
(with explicit `% 2^w` where the C++ type wraps), `std::chrono` instants
become integer millisecond counts, byte buffers become `List Nat`, and
strings become `List Char`.
-/

namespace RPiAES67

/-! ## Clock conversion (src/ptp_sync.cpp, PTPSync::Impl::ptp_to_rtp_timestamp)

The C++ computes `uint64_t timestamp = (ptp_ns * sample_rate) / 1000000000ULL;`
followed by `static_cast<uint32_t>(timestamp)`.  `ptp_ns` is `uint64_t` and
`sample_rate` is `uint32_t` promoted to `uint64_t`, so the product is taken
modulo `2^64`, the division is exact integer division, and the final cast
reduces modulo `2^32`. -/

/-- Embedding of `PTPSync::Impl::ptp_to_rtp_timestamp` (ptp_sync.cpp lines
105-110). -/
def ptp_to_rtp_timestamp (ptp_ns sample_rate : Nat) : Nat :=
  ptp_ns * sample_rate % 2 ^ 64 / 1000000000 % 2 ^ 32

/-! ## Jitter buffer (src/receiver.cpp, JitterBuffer::Impl) -/

/-- Embedding of `JitterBuffer::Impl::Packet`: payload bytes, RTP sequence,
RTP timestamp, and the arrival instant (milliseconds on the steady clock). -/
structure JBPacket where
  data : List Nat
  sequence : Nat
  timestamp : Nat
  arrival_time : Int
deriving DecidableEq, Repr

/-- Embedding of `JitterBuffer::Config` (receiver.h) with the source's
default member values. -/
structure JBConfig where
  target_delay_ms : Nat := 10
  min_delay_ms : Nat := 5
  max_delay_ms : Nat := 50
  max_packets : Nat := 1000
deriving DecidableEq, Repr

/-- Embedding of the insertion loop of `JitterBuffer::Impl::push`
(receiver.cpp lines 64-69): advance past elements whose timestamp is
strictly below the new packet's timestamp (plain `uint32_t <`), then insert
in front of the first remaining element. -/
def insertByTimestamp (p : JBPacket) : List JBPacket → List JBPacket
  | [] => [p]
  | q :: qs => if q.timestamp < p.timestamp then q :: insertByTimestamp p qs else p :: q :: qs

/-- Embedding of `JitterBuffer::Impl::push` (receiver.cpp lines 50-72):
drop the front element when the buffer is full, then insert ordered by
timestamp. -/
def push (cfg : JBConfig) (buf : List JBPacket) (data : List Nat)
    (sequence timestamp : Nat) (now : Int) : List JBPacket :=
  let buf := if cfg.max_packets ≤ buf.length then buf.drop 1 else buf
  insertByTimestamp ⟨data, sequence, timestamp, now⟩ buf

/-- Embedding of `JitterBuffer::Impl::pop` (receiver.cpp lines 74-98).
Returns `none` when the buffer is empty or when the head has dwelt less
than `target_delay_ms` while fewer than 3 packets are queued; otherwise
returns the copied bytes (at most `max_size` of them), the reported size,
the head timestamp, and the remaining buffer. -/
def pop (cfg : JBConfig) (buf : List JBPacket) (max_size : Nat) (now : Int) :
    Option (List Nat × Nat × Nat × List JBPacket) :=
  match buf with
  | [] => none
  | pkt :: rest =>
    if now - pkt.arrival_time < (cfg.target_delay_ms : Int) ∧ (pkt :: rest).length < 3 then
      none
    else
      some (pkt.data.take (min max_size pkt.data.length),
            min max_size pkt.data.length, pkt.timestamp, rest)

/-- Repeated `pop` at a fixed instant, as performed by the playout loop
(`AES67Receiver::Impl::playout_loop`, receiver.cpp lines 578-595) until the
buffer refuses to yield. -/
def drainAll (cfg : JBConfig) (max_size : Nat) (now : Int) :
    List JBPacket → List (List Nat × Nat)
  | [] => []
  | pkt :: rest =>
    match pop cfg (pkt :: rest) max_size now with
    | none => []
    | some (bytes, _, ts, _) => (bytes, ts) :: drainAll cfg max_size now rest

/-- A push request as delivered by the network path: payload bytes,
sequence, timestamp, arrival instant. -/
def pushSeq (cfg : JBConfig) (ops : List (List Nat × Nat × Nat × Int)) : List JBPacket :=
  ops.foldl (fun b op => push cfg b op.1 op.2.1 op.2.2.1 op.2.2.2) []

/-- Modelled from the spec: the wrap-safe 32-bit comparison the
specification prescribes for jitter-buffer ordering, `a` earlier than `b`
iff `(a − b) mod 2^32 ≥ 2^31`.  Used only to compare the code's actual
ordering against the specified one. -/
def wrapSafeEarlier (a b : Nat) : Bool :=
  decide (2 ^ 31 ≤ (a + 2 ^ 32 - b) % 2 ^ 32)

/-! ## Receiver statistics (src/receiver.cpp, AES67Receiver::Impl::process_rtp_packet) -/

/-- Embedding of the counters of `ReceiverStatistics` (receiver.h) that the
packet path touches. -/
structure RecvStats where
  packets_received : Nat := 0
  packets_lost : Nat := 0
  packets_out_of_order : Nat := 0
  bytes_received : Nat := 0
  last_sequence_number : Nat := 0
  last_rtp_timestamp : Nat := 0
deriving DecidableEq, Repr

/-- Receiver-side state threaded through packet processing: the statistics,
the jitter buffer, and the last-sequence tracking pair. -/
structure RecvState where
  stats : RecvStats := {}
  jbuf : List JBPacket := []
  last_sequence : Nat := 0
  last_sequence_valid : Bool := false
deriving DecidableEq, Repr

/-- Embedding of `AES67Receiver::Impl::process_rtp_packet` from the point
where the header has been parsed (receiver.cpp lines 537-576): push the
payload into the jitter buffer, bump the counters, and run the
sequence-gap heuristic `int16_t diff = (int16_t)(seq - last - 1)`.
`size` is the raw datagram size counted into `bytes_received`. -/
def process_rtp_packet (cfg : JBConfig) (st : RecvState) (sequence timestamp : Nat)
    (payload : List Nat) (size : Nat) (now : Int) : RecvState :=
  let jbuf := push cfg st.jbuf payload sequence timestamp now
  let stats := { st.stats with
    packets_received := st.stats.packets_received + 1
    bytes_received := st.stats.bytes_received + size
    last_sequence_number := sequence
    last_rtp_timestamp := timestamp }
  let stats :=
    if st.last_sequence_valid then
      let d : Int := ((sequence : Int) - (st.last_sequence : Int) - 1) % 65536
      let diff : Int := if d < 32768 then d else d - 65536
      if 0 < diff then { stats with packets_lost := stats.packets_lost + diff.toNat }
      else if diff < -1 then
        { stats with packets_out_of_order := stats.packets_out_of_order + 1 }
      else stats
    else stats
  { stats := stats, jbuf := jbuf, last_sequence := sequence, last_sequence_valid := true }

/-- Feed a list of sequence numbers through `process_rtp_packet`, each
packet carrying its sequence number as a one-byte payload and an RTP
timestamp of 48 samples per packet, all arriving at instant 0. -/
def runSeqs (seqs : List Nat) : RecvState :=
  seqs.foldl (fun st s => process_rtp_packet {} st s (48 * s) [s] 13 0) {}

/-! ## Audio format (src/config.cpp) -/

/-- Embedding of `AudioFormat` (config.h): `sample_rate` is `uint32_t`,
`channels` and `bit_depth` are `uint8_t`. -/
structure AudioFormat where
  sample_rate : Nat := 48000
  channels : Nat := 2
  bit_depth : Nat := 24
deriving DecidableEq, Repr

/-- Embedding of `AudioFormat::bytes_per_frame` (config.h line 48):
`bit_depth / 8 * channels`.  The C++ computes this `uint32_t` product from
two `uint8_t` fields, so it is at most `31 * 255` and never wraps. -/
def AudioFormat.bytes_per_frame (f : AudioFormat) : Nat :=
  f.bit_depth / 8 * f.channels

/-! ## Sender packetization (src/sender.cpp, AES67Sender::Impl) -/

/-- Embedding of the `SenderConfig` fields (config.h) that the send path
reads. -/
structure SenderCfg where
  sample_rate : Nat := 48000
  packet_time_us : Nat := 1000
  channels : Nat := 2
  bit_depth : Nat := 24
  payload_type : Nat := 97
deriving DecidableEq, Repr

/-- The audio format a configured sender derives from its config
(`AES67Sender::Impl::configure`, sender.cpp lines 51-53). -/
def SenderCfg.format (cfg : SenderCfg) : AudioFormat :=
  { sample_rate := cfg.sample_rate, channels := cfg.channels, bit_depth := cfg.bit_depth }

/-- `samples_per_packet` as computed in `on_audio_data` (sender.cpp line
205): `config_.sample_rate` and `config_.packet_time_us` are both
`uint32_t`, so their product is computed in 32-bit arithmetic and wraps
modulo `2^32` before the division (e.g. at 96000 Hz with
`packet_time_us = 44740` the product 4295040000 wraps to 72704 and the
quotient is 0). -/
def SenderCfg.samples_per_packet (cfg : SenderCfg) : Nat :=
  cfg.sample_rate * cfg.packet_time_us % 2 ^ 32 / 1000000

/-- `bytes_per_packet` as computed in `on_audio_data` (sender.cpp line
206): the product of the `uint32_t` values `samples_per_packet` and
`format_.bytes_per_frame()` is computed in 32-bit arithmetic (wrapping
modulo `2^32`) before being widened to `size_t`. -/
def SenderCfg.bytes_per_packet (cfg : SenderCfg) : Nat :=
  cfg.samples_per_packet * cfg.format.bytes_per_frame % 2 ^ 32

/-- The sender statistics the packet path mutates: the `uint64_t` sequence
counter and the `uint32_t` RTP timestamp (sender.h lines 33-34). -/
structure SenderSt where
  seq : Nat := 0
  ts : Nat := 0
deriving DecidableEq, Repr

/-- Embedding of the send loop of `on_audio_data` (sender.cpp lines
218-230) together with the header stamping of `send_rtp_packet` (lines
243-244): while at least `bytes_per_packet` bytes remain, emit a packet
whose header sequence is `(uint16_t)(sequence_number++)` and whose header
timestamp is the running `uint32_t` RTP timestamp, then advance the
timestamp by `samples_per_packet`.  Returns the emitted `(seq, ts)` pairs
and the final sequence/timestamp counters. -/
def sendPacketsAux : Nat → Nat → Nat → Nat → Nat → Nat → List (Nat × Nat) × Nat × Nat
  | 0, _, _, seq, ts, _ => ([], seq, ts)
  | fuel + 1, bpp, spp, seq, ts, rem =>
    if 0 < bpp ∧ bpp ≤ rem then
      let rest := sendPacketsAux fuel bpp spp ((seq + 1) % 2 ^ 64) ((ts + spp) % 2 ^ 32) (rem - bpp)
      ((seq % 2 ^ 16, ts) :: rest.1, rest.2)
    else ([], seq, ts)

/-- The send loop proper; the fuel of `sendPacketsAux` only forces
structural recursion and never runs out, since each iteration consumes at
least one byte of the remaining buffer. -/
def sendPackets (bpp spp seq ts rem : Nat) : List (Nat × Nat) × Nat × Nat :=
  sendPacketsAux (rem + 1) bpp spp seq ts rem

/-- Embedding of `AES67Sender::Impl::on_audio_data` (sender.cpp lines
201-230) on one capture buffer of `bufSize` bytes.  `clock` is `some t`
when `ptp_sync_ && ptp_sync_->is_synchronized()` holds and the clock read
`get_rtp_timestamp` returns `t` (a `uint32_t`); otherwise the prior
session counter `stats_.rtp_timestamp` is continued. -/
def on_audio_data (cfg : SenderCfg) (st : SenderSt) (clock : Option Nat) (bufSize : Nat) :
    List (Nat × Nat) × SenderSt :=
  let ts0 := match clock with
    | some t => t % 2 ^ 32
    | none => st.ts
  let r := sendPackets cfg.bytes_per_packet cfg.samples_per_packet st.seq ts0 bufSize
  (r.1, ⟨r.2.1, r.2.2⟩)

/-- A whole sender session over a list of capture deliveries, each a clock
reading (as in `on_audio_data`) and a buffer size. -/
def runSender (cfg : SenderCfg) (st : SenderSt) :
    List (Option Nat × Nat) → List (Nat × Nat) × SenderSt
  | [] => ([], st)
  | (clock, sz) :: rest =>
    let r := on_audio_data cfg st clock sz
    let r' := runSender cfg r.2 rest
    (r.1 ++ r'.1, r'.2)

/-- A session whose PTP follower is never synchronized: every buffer
continues the session counter. -/
def runSenderUnsync (cfg : SenderCfg) (st : SenderSt) (sizes : List Nat) :
    List (Nat × Nat) × SenderSt :=
  runSender cfg st (sizes.map (fun sz => (none, sz)))

/-! ## Strings and character classes

SDP documents and HTTP strings are embedded as `List Char`.  The character
classes below embed the `std::regex` (ECMAScript) classes used by
`SDPParser::parse`, restricted to the 8-bit characters the parser sees. -/

/-- The character list of a string literal. -/
def str (s : String) : List Char := s.data

/-- Regex class `\d`. -/
def isDigitC (c : Char) : Bool := 48 ≤ c.toNat && c.toNat ≤ 57

/-- Regex class `\s` (space, tab, newline, vertical tab, form feed,
carriage return). -/
def isSpaceC (c : Char) : Bool :=
  c.toNat = 32 || c.toNat = 9 || c.toNat = 10 || c.toNat = 11 || c.toNat = 12 || c.toNat = 13

/-- Regex class `\S`. -/
def isNonSpaceC (c : Char) : Bool := !isSpaceC c

/-- Regex class `\w`. -/
def isWordC (c : Char) : Bool :=
  isDigitC c || (65 ≤ c.toNat && c.toNat ≤ 90) || (97 ≤ c.toNat && c.toNat ≤ 122) || c.toNat = 95

/-- Regex class `[0-9.]`. -/
def isDigitDotC (c : Char) : Bool := isDigitC c || c.toNat = 46

/-- Regex class `[0-9A-Fa-f:-]`. -/
def isHexColonDashC (c : Char) : Bool :=
  isDigitC c || (65 ≤ c.toNat && c.toNat ≤ 70) || (97 ≤ c.toNat && c.toNat ≤ 102) ||
  c.toNat = 58 || c.toNat = 45

/-- Fuel-indexed helper for `decDigits`; the fuel only forces structural
recursion and never runs out when it exceeds `n`. -/
def decDigitsAux : Nat → Nat → List Char
  | 0, _ => []
  | fuel + 1, n =>
    if n < 10 then [Nat.digitChar n]
    else decDigitsAux fuel (n / 10) ++ [Nat.digitChar (n % 10)]

/-- Decimal digits of `n`, most significant first: the embedding of
printing an unsigned integer with `operator<<`. -/
def decDigits (n : Nat) : List Char := decDigitsAux (n + 1) n

/-- Value of a digit string, the embedding of `std::stoi` on the all-digit
strings captured by the parser's regexes (within `int` range the result is
exact; the parser's callers cast it to the destination width). -/
def decToNat (ds : List Char) : Nat :=
  ds.foldl (fun a c => a * 10 + (c.toNat - 48)) 0

/-! ## Regex matchers

Each `std::regex` of `SDPParser::parse` is embedded as a deterministic
matcher.  In every pattern each greedy `X+` piece is followed by a literal
or class disjoint from `X`, so the ECMAScript backtracking semantics
coincide with maximal munch, which is what the matchers implement.
`regex_search` tries successive start positions left to right; `searchO`
does the same. -/

/-- Match a literal, returning the remainder. -/
def dropLit : List Char → List Char → Option (List Char)
  | [], r => some r
  | _ :: _, [] => none
  | p :: ps, c :: cs => if c = p then dropLit ps cs else none

/-- Match `X+` for class `P` (greedy, at least one character). -/
def plusC (P : Char → Bool) (l : List Char) : Option (List Char × List Char) :=
  match l.takeWhile P with
  | [] => none
  | a => some (a, l.dropWhile P)

/-- Try a matcher at every start position, left to right, as
`std::regex_search` does. -/
def searchO {α : Type} (f : List Char → Option α) : List Char → Option α
  | [] => f []
  | c :: cs =>
    match f (c :: cs) with
    | some r => some r
    | none => searchO f cs

/-- Matcher for `o=\S+\s+(\d+)\s+\d+\s+IN\s+IP4\s+(\S+)` at one position;
returns (session id digits, origin address). -/
def matchOriginAt (l : List Char) : Option (List Char × List Char) := do
  let r ← dropLit (str "o=") l
  let (_, r) ← plusC isNonSpaceC r
  let (_, r) ← plusC isSpaceC r
  let (sid, r) ← plusC isDigitC r
  let (_, r) ← plusC isSpaceC r
  let (_, r) ← plusC isDigitC r
  let (_, r) ← plusC isSpaceC r
  let r ← dropLit (str "IN") r
  let (_, r) ← plusC isSpaceC r
  let r ← dropLit (str "IP4") r
  let (_, r) ← plusC isSpaceC r
  let (addr, _) ← plusC isNonSpaceC r
  pure (sid, addr)

/-- Matcher for `c=IN\s+IP4\s+([0-9.]+)` at one position. -/
def matchConnAt (l : List Char) : Option (List Char) := do
  let r ← dropLit (str "c=IN") l
  let (_, r) ← plusC isSpaceC r
  let r ← dropLit (str "IP4") r
  let (_, r) ← plusC isSpaceC r
  let (ip, _) ← plusC isDigitDotC r
  pure ip

/-- Matcher for `m=audio\s+(\d+)\s+RTP/AVP\s+(\d+)` at one position;
returns (port digits, payload-type digits). -/
def matchMediaAt (l : List Char) : Option (List Char × List Char) := do
  let r ← dropLit (str "m=audio") l
  let (_, r) ← plusC isSpaceC r
  let (port, r) ← plusC isDigitC r
  let (_, r) ← plusC isSpaceC r
  let r ← dropLit (str "RTP/AVP") r
  let (_, r) ← plusC isSpaceC r
  let (pt, _) ← plusC isDigitC r
  pure (port, pt)

/-- Matcher for `a=rtpmap:(\d+)\s+(\w+)/(\d+)/(\d+)` at one position;
returns (encoding, rate digits, channel digits) — the payload-type capture
is matched but unused by the parser. -/
def matchRtpmapAt (l : List Char) : Option (List Char × List Char × List Char) := do
  let r ← dropLit (str "a=rtpmap:") l
  let (_, r) ← plusC isDigitC r
  let (_, r) ← plusC isSpaceC r
  let (enc, r) ← plusC isWordC r
  let r ← dropLit (str "/") r
  let (rate, r) ← plusC isDigitC r
  let r ← dropLit (str "/") r
  let (ch, _) ← plusC isDigitC r
  pure (enc, rate, ch)

/-- Matcher for `ptp=IEEE1588-\d+:([0-9A-Fa-f:-]+)` at one position. -/
def matchPtpAt (l : List Char) : Option (List Char) := do
  let r ← dropLit (str "ptp=IEEE1588-") l
  let (_, r) ← plusC isDigitC r
  let r ← dropLit (str ":") r
  let (cid, _) ← plusC isHexColonDashC r
  pure cid

/-- Substring containment, the embedding of
`line.find(pat) != std::string::npos`. -/
def containsSub (pat l : List Char) : Bool := (searchO (dropLit pat) l).isSome

/-- The first character of `l`, if any, falsifies `P`; the boundary
condition under which a greedy `X+` match stops exactly at `l`. -/
def headNotP (P : Char → Bool) : List Char → Prop
  | [] => True
  | c :: _ => P c = false

/-- No character of `l` is a line feed (such an `l` stays within one
`getline` line). -/
@[reducible]
def noNL (l : List Char) : Prop := ∀ c ∈ l, c ≠ '\n'

/-! ## SDP parser (src/receiver.cpp, SDPParser) -/

/-- Embedding of `SDPInfo` (receiver.h) with its default member values. -/
structure SDPInfo where
  session_name : List Char := []
  session_id : List Char := []
  origin_address : List Char := []
  source_ip : List Char := []
  port : Nat := 0
  payload_type : Nat := 0
  format : AudioFormat := {}
  encoding : List Char := []
  packet_time_us : Nat := 1000
  ptp_clock_id : List Char := []
  is_valid : Bool := false
deriving DecidableEq, Repr

/-- Embedding of the `a=ptime:` branch's
`static_cast<uint32_t>(std::stod(s) * 1000)` (receiver.cpp lines 218-219)
for the integer-valued ptime strings the generator emits, on which `stod`
and the multiply are exact. -/
def stodTimes1000 (ds : List Char) : Nat :=
  decToNat (ds.takeWhile isDigitC) * 1000 % 2 ^ 32

/-- Embedding of the line splitting performed by `std::getline` over the
SDP text (receiver.cpp line 158): split on `\n`, the final fragment kept
only when nonempty. -/
def getLines : List Char → List (List Char)
  | [] => []
  | c :: cs =>
    if c = '\n' then [] :: getLines cs
    else
      match getLines cs with
      | [] => [[c]]
      | l :: ls => (c :: l) :: ls

/-- Embedding of the carriage-return strip at the top of the parse loop
(receiver.cpp lines 160-162). -/
def stripCR (l : List Char) : List Char :=
  match l.getLast? with
  | some c => if c = '\r' then l.dropLast else l
  | none => l

/-- Embedding of one iteration of the parse loop of `SDPParser::parse`
(receiver.cpp lines 158-232): strip the trailing carriage return, skip
empty lines, then dispatch on the line prefix exactly as the if-else
chain does. -/
def parseLine (info : SDPInfo) (line0 : List Char) : SDPInfo :=
  let line := stripCR line0
  if line.isEmpty then info
  else if line.take 2 = str "s=" then
    { info with session_name := line.drop 2 }
  else if line.take 2 = str "o=" then
    match searchO matchOriginAt line with
    | some (sid, addr) => { info with session_id := sid, origin_address := addr }
    | none => info
  else if line.take 2 = str "c=" then
    match searchO matchConnAt line with
    | some ip => { info with source_ip := ip }
    | none => info
  else if line.take 2 = str "m=" then
    match searchO matchMediaAt line with
    | some (port, pt) =>
      { info with port := decToNat port % 2 ^ 16, payload_type := decToNat pt % 2 ^ 8 }
    | none => info
  else if line.take 9 = str "a=rtpmap:" then
    match searchO matchRtpmapAt line with
    | some (enc, rate, ch) =>
      let fmt := { info.format with
        sample_rate := decToNat rate % 2 ^ 32, channels := decToNat ch % 2 ^ 8 }
      let fmt :=
        if enc = str "L16" then { fmt with bit_depth := 16 }
        else if enc = str "L24" then { fmt with bit_depth := 24 }
        else if enc = str "L32" then { fmt with bit_depth := 32 }
        else fmt
      { info with encoding := enc, format := fmt }
    | none => info
  else if line.take 8 = str "a=ptime:" then
    { info with packet_time_us := stodTimes1000 (line.drop 8) }
  else if line.take 12 = str "a=ts-refclk:" then
    if containsSub (str "ptp=IEEE1588") line then
      match searchO matchPtpAt line with
      | some cid => { info with ptp_clock_id := cid }
      | none => info
    else info
  else info

/-- Embedding of `SDPParser::parse` (receiver.cpp lines 153-239). -/
def parse (sdp : List Char) : SDPInfo :=
  let info := (getLines sdp).foldl parseLine {}
  { info with is_valid :=
      (!info.source_ip.isEmpty && decide (0 < info.port) &&
        decide (0 < info.format.sample_rate) && decide (0 < info.format.channels)) }

/-- Embedding of `SDPParser::validate_aes67` (receiver.cpp lines 241-262). -/
def validate_aes67 (info : SDPInfo) : Bool :=
  if !info.is_valid then false
  else
    let valid_sample_rate := info.format.sample_rate = 44100 ||
      info.format.sample_rate = 48000 || info.format.sample_rate = 96000
    let valid_bit_depth := info.format.bit_depth = 16 ||
      info.format.bit_depth = 24 || info.format.bit_depth = 32
    let valid_encoding := info.encoding = str "L16" ||
      info.encoding = str "L24" || info.encoding = str "L32"
    valid_sample_rate && valid_bit_depth && valid_encoding

/-! ## SDP generator (src/sender.cpp, SDPGenerator::generate) -/

/-- Embedding of `AudioFormat::encoding_name` (config.cpp lines 21-28). -/
def encoding_name (f : AudioFormat) : List Char :=
  if f.bit_depth = 16 then str "L16"
  else if f.bit_depth = 24 then str "L24"
  else if f.bit_depth = 32 then str "L32"
  else str "L24"

/-- Embedding of `SDPGenerator::generate` (sender.cpp lines 336-385). -/
def generate (multicast_ip : List Char) (port payload_type : Nat) (format : AudioFormat)
    (session_name : List Char) (session_id : Nat) (origin_address : List Char) : List Char :=
  str "v=0\r\n" ++
  str "o=- " ++ decDigits session_id ++ str " " ++ decDigits session_id ++
    str " IN IP4 " ++ origin_address ++ str "\r\n" ++
  str "s=" ++ session_name ++ str "\r\n" ++
  str "c=IN IP4 " ++ multicast_ip ++ str "/32\r\n" ++
  str "t=0 0\r\n" ++
  str "m=audio " ++ decDigits port ++ str " RTP/AVP " ++ decDigits payload_type ++ str "\r\n" ++
  str "a=rtpmap:" ++ decDigits payload_type ++ str " " ++ encoding_name format ++ str "/" ++
    decDigits format.sample_rate ++ str "/" ++ decDigits format.channels ++ str "\r\n" ++
  str "a=ptime:1\r\n" ++
  str "a=ts-refclk:ptp=IEEE1588-2008\r\n" ++
  str "a=mediaclk:direct=0\r\n"

/-- Regeneration of an SDP document from parsed fields: `generate` applied
to the `SDPInfo` members, the decimal session id read back as a number. -/
def regenerate (info : SDPInfo) : List Char :=
  generate info.source_ip info.port info.payload_type info.format info.session_name
    (decToNat info.session_id) info.origin_address

/-! ## NMOS connection API (src/nmos_node.cpp, NMOSNode::Impl::handle_connection_api) -/

/-- Embedding of `NMOSNode::Impl::handle_connection_api` (nmos_node.cpp
lines 514-544).  For a PATCH whose path contains "/staged" the source
locates the JSON body and then abandons it (the staging call is a TODO at
line 529); the reply body is the fixed string regardless of the request,
and no other state is touched — the member function reads no maps and
calls neither `stage_connection` nor `activate_connection`. -/
def handle_connection_api (method path _request : List Char) : List Char :=
  let body :=
    if method = str "PATCH" && containsSub (str "/staged") path then
      str "\x7b\"master_enable\": true\x7d"
    else
      str "\x7b\x7d"
  str "HTTP/1.1 200 OK\r\n" ++
  str "Content-Type: application/json\r\n" ++
  str "Content-Length: " ++ decDigits body.length ++ str "\r\n" ++
  str "\r\n" ++ body

/-- Sender configuration used for the sequence-wrap analysis: 48 kHz, 1 ms
packets, one 16-bit channel, so 48 samples and 96 bytes per packet. -/
def cexSenderCfg : SenderCfg :=
  { sample_rate := 48000, packet_time_us := 1000, channels := 1, bit_depth := 16,
    payload_type := 97 }

/-- A parsed-SDP value whose encoding does not match its bit depth and
whose packet time is outside the AES67 set. -/
def validateCexInfo : SDPInfo :=
  { source_ip := str "239.0.0.1", port := 5004, payload_type := 97,
    format := { sample_rate := 48000, channels := 2, bit_depth := 24 },
    encoding := str "L16", packet_time_us := 7000, is_valid := true }

/-! ## Theorems -/

/-- C1 counterexample: at `ptp_ns = 2^63`, `sample_rate = 2` the product
overflows the 64-bit intermediate, so the code returns 0 while
`floor(ptp_ns · sr / 10^9) mod 2^32` is 1266874889. -/
theorem ptp_to_rtp_timestamp_overflow_counterexample :
    ptp_to_rtp_timestamp (2 ^ 63) 2 = 0 ∧
    2 ^ 63 * 2 / 1000000000 % 2 ^ 32 = 1266874889 ∧ (0 : Nat) ≠ 1266874889 := by
  refine ⟨by decide, by decide, by decide⟩

/-- C1 amended: whenever the 64-bit product does not overflow — in
particular for all PTP instants and sample rates a running system
produces — the conversion returns `floor(ptp_ns · sr / 10^9) mod 2^32`,
computed with integer arithmetic only. -/
theorem ptp_to_rtp_timestamp_exact (ptp_ns sample_rate : Nat)
    (h : ptp_ns * sample_rate < 2 ^ 64) :
    ptp_to_rtp_timestamp ptp_ns sample_rate = ptp_ns * sample_rate / 1000000000 % 2 ^ 32 := by
  unfold ptp_to_rtp_timestamp
  rw [Nat.mod_eq_of_lt h]

/-- C1 witness: the amended theorem at `ptp_ns = 10^9`, `sr = 48000`. -/
theorem ptp_to_rtp_timestamp_exact_witness :
    10 ^ 9 * 48000 < 2 ^ 64 ∧
    ptp_to_rtp_timestamp (10 ^ 9) 48000 = 10 ^ 9 * 48000 / 1000000000 % 2 ^ 32 :=
  ⟨by decide, ptp_to_rtp_timestamp_exact (10 ^ 9) 48000 (by decide)⟩

/-! ### Jitter-buffer ordering (C2) -/

/-- Membership after insertion: the inserted element or an old one. -/
theorem mem_insertByTimestamp {b p : JBPacket} :
    ∀ {l : List JBPacket}, b ∈ insertByTimestamp p l → b = p ∨ b ∈ l := by
  intro l
  induction l with
  | nil => intro h; simp [insertByTimestamp] at h; exact Or.inl h
  | cons q qs ih =>
    intro h
    rw [insertByTimestamp] at h
    split_ifs at h with hq
    · rcases List.mem_cons.mp h with h1 | h2
      · exact Or.inr (List.mem_cons.mpr (Or.inl h1))
      · rcases ih h2 with h3 | h4
        · exact Or.inl h3
        · exact Or.inr (List.mem_cons.mpr (Or.inr h4))
    · rcases List.mem_cons.mp h with h1 | h2
      · exact Or.inl h1
      · exact Or.inr h2

/-- The insertion loop preserves the plain (non-wrapping) timestamp
order. -/
theorem insertByTimestamp_pairwise {p : JBPacket} :
    ∀ {l : List JBPacket}, l.Pairwise (fun a b => a.timestamp ≤ b.timestamp) →
      (insertByTimestamp p l).Pairwise (fun a b => a.timestamp ≤ b.timestamp) := by
  intro l
  induction l with
  | nil => intro _; simp [insertByTimestamp]
  | cons q qs ih =>
    intro h
    rcases List.pairwise_cons.mp h with ⟨hq, hqs⟩
    rw [insertByTimestamp]
    split_ifs with hlt
    · refine List.pairwise_cons.mpr ⟨?_, ih hqs⟩
      intro b hb
      rcases mem_insertByTimestamp hb with rfl | hbq
      · exact Nat.le_of_lt hlt
      · exact hq b hbq
    · refine List.pairwise_cons.mpr ⟨?_, h⟩
      intro b hb
      rcases List.mem_cons.mp hb with rfl | hbq
      · exact Nat.le_of_not_lt hlt
      · exact Nat.le_trans (Nat.le_of_not_lt hlt) (hq b hbq)

/-- A push preserves the plain timestamp order. -/
theorem push_pairwise {cfg : JBConfig} {buf : List JBPacket}
    (h : buf.Pairwise (fun a b => a.timestamp ≤ b.timestamp))
    (data : List Nat) (sequence timestamp : Nat) (now : Int) :
    (push cfg buf data sequence timestamp now).Pairwise
      (fun a b => a.timestamp ≤ b.timestamp) := by
  unfold push
  split_ifs with hfull
  · exact insertByTimestamp_pairwise (h.sublist (List.drop_sublist 1 buf))
  · exact insertByTimestamp_pairwise h

/-- C2 counterexample: pushing timestamp `2^32 − 1` and then timestamp `0`
stores them as `[0, 2^32 − 1]`, although under the wrap-safe comparison
the element with timestamp `2^32 − 1` is earlier than the one with
timestamp `0`; the code orders by plain `uint32_t <`, which is not
wrap-safe. -/
theorem jitter_push_wrap_counterexample :
    (pushSeq {} [([1], 1, 4294967295, 0), ([2], 2, 0, 0)]).map JBPacket.timestamp =
      [0, 4294967295] ∧
    wrapSafeEarlier 4294967295 0 = true := by
  refine ⟨by decide, by decide⟩

/-- C2 amended: after any sequence of pushes the buffer is ordered
non-decreasingly by the plain 32-bit timestamp value (not the wrap-safe
order), and a new packet is inserted in front of an existing packet with
an equal timestamp (insertion is not FIFO-stable for equal keys). -/
theorem jitter_push_plain_order :
    (∀ (cfg : JBConfig) (ops : List (List Nat × Nat × Nat × Int)),
       (pushSeq cfg ops).Pairwise (fun a b => a.timestamp ≤ b.timestamp)) ∧
    (∀ (d1 d2 : List Nat) (s1 s2 t : Nat) (a1 a2 : Int) (l : List JBPacket),
       insertByTimestamp ⟨d2, s2, t, a2⟩ (⟨d1, s1, t, a1⟩ :: l) =
         ⟨d2, s2, t, a2⟩ :: ⟨d1, s1, t, a1⟩ :: l) := by
  constructor
  · intro cfg ops
    unfold pushSeq
    generalize hacc : ([] : List JBPacket) = acc
    have hsorted : acc.Pairwise (fun a b => a.timestamp ≤ b.timestamp) := by
      rw [← hacc]; exact List.Pairwise.nil
    clear hacc
    induction ops generalizing acc with
    | nil => exact hsorted
    | cons op rest ih =>
      exact ih _ (push_pairwise hsorted op.1 op.2.1 op.2.2.1 op.2.2.2)
  · intro d1 d2 s1 s2 t a1 a2 l
    rw [insertByTimestamp]
    simp

/-! ### Reorder burst (C3) -/

/-- C3 counterexample: processing the burst with arrival order
[0,1,3,2,4,5,6,7,8,9] leaves `packets_lost = 2`, not 0 — the gap
heuristic counts the jump 1→3 and the jump 2→4 as one lost packet
each and never un-counts them when 2 arrives late. -/
theorem reorder_burst_lost_counterexample :
    (runSeqs [0, 1, 3, 2, 4, 5, 6, 7, 8, 9]).stats.packets_lost = 2 := by decide

/-- C3 amended: draining the buffer yields the payloads in sequence order
0..9 and the statistics show `packets_out_of_order = 1`, but
`packets_lost = 2` (not 0). -/
theorem reorder_burst_drain :
    drainAll {} 8192 100 (runSeqs [0, 1, 3, 2, 4, 5, 6, 7, 8, 9]).jbuf =
      [([0], 0), ([1], 48), ([2], 96), ([3], 144), ([4], 192), ([5], 240),
       ([6], 288), ([7], 336), ([8], 384), ([9], 432)] ∧
    (runSeqs [0, 1, 3, 2, 4, 5, 6, 7, 8, 9]).stats.packets_out_of_order = 1 ∧
    (runSeqs [0, 1, 3, 2, 4, 5, 6, 7, 8, 9]).stats.packets_lost = 2 := by
  refine ⟨by decide, by decide, by decide⟩

/-! ### Pop gating (C5) -/

/-- C5 counterexample: with the default configuration
(`target_delay_ms = 10`, `min_delay_ms = 5`), three packets that all
arrived at the current instant are popped immediately — the head has
dwelt 0 ms, below `min(target_delay_ms, min_delay_ms) = 5` ms, and the
buffer (capacity 1000) has never been full, so no primed condition was
needed. -/
theorem jitter_pop_dwell_counterexample :
    (pop {} [⟨[1], 0, 0, 100⟩, ⟨[2], 1, 1, 100⟩, ⟨[3], 2, 2, 100⟩] 8192 100).isSome = true ∧
    ((100 : Int) - 100 <
      (min ({} : JBConfig).target_delay_ms ({} : JBConfig).min_delay_ms : Nat)) ∧
    ({} : JBConfig).max_packets = 1000 := by
  refine ⟨by decide, by decide, by decide⟩

/-- C5 amended: `pop` yields the head exactly when the buffer is nonempty
and either the head has dwelt at least `target_delay_ms` milliseconds or
at least 3 packets are queued; no primed flag exists and `min_delay_ms`
is never consulted. -/
theorem jitter_pop_gate :
    (∀ (cfg : JBConfig) (max_size : Nat) (now : Int), pop cfg [] max_size now = none) ∧
    (∀ (cfg : JBConfig) (pkt : JBPacket) (rest : List JBPacket) (max_size : Nat) (now : Int),
       (pop cfg (pkt :: rest) max_size now).isSome = true ↔
         ((cfg.target_delay_ms : Int) ≤ now - pkt.arrival_time ∨
          3 ≤ (pkt :: rest).length)) := by
  constructor
  · intro cfg max_size now; rfl
  · intro cfg pkt rest max_size now
    rw [pop]
    split_ifs with h
    · simp only [Option.isSome_none, Bool.false_eq_true, false_iff]
      omega
    · simp only [Option.isSome_some, true_iff]
      omega

/-! ### Pop truncation (C10) -/

/-- C10: when the gate allows a pop and the head payload exceeds
`max_size`, exactly `max_size` bytes are copied, the reported size is
`max_size`, and the whole packet is removed from the buffer; and any
successful pop reports at most `max_size` copied bytes. -/
theorem jitter_pop_truncates :
    (∀ (cfg : JBConfig) (pkt : JBPacket) (rest : List JBPacket) (max_size : Nat) (now : Int),
       ((cfg.target_delay_ms : Int) ≤ now - pkt.arrival_time ∨ 3 ≤ (pkt :: rest).length) →
       max_size < pkt.data.length →
       pop cfg (pkt :: rest) max_size now =
         some (pkt.data.take max_size, max_size, pkt.timestamp, rest) ∧
       (pkt.data.take max_size).length = max_size) ∧
    (∀ (cfg : JBConfig) (buf : List JBPacket) (max_size : Nat) (now : Int)
       (bytes : List Nat) (sz ts : Nat) (rest2 : List JBPacket),
       pop cfg buf max_size now = some (bytes, sz, ts, rest2) →
       bytes.length ≤ max_size ∧ sz ≤ max_size) := by
  constructor
  · intro cfg pkt rest max_size now hgate hsize
    have hmin : min max_size pkt.data.length = max_size := Nat.min_eq_left (Nat.le_of_lt hsize)
    rw [pop, if_neg (by omega), hmin]
    exact ⟨rfl, by rw [List.length_take]; omega⟩
  · intro cfg buf max_size now bytes sz ts rest2 h
    cases buf with
    | nil => simp [pop] at h
    | cons pkt rest =>
      rw [pop] at h
      split_ifs at h
      rcases Option.some.inj h with h2
      have hb : bytes = pkt.data.take (min max_size pkt.data.length) := congrArg (·.1) h2.symm
      have hs : sz = min max_size pkt.data.length := congrArg (·.2.1) h2.symm
      subst hb; subst hs
      constructor
      · rw [List.length_take]; omega
      · omega

/-- C10 witness: a 5-byte payload popped with `max_size = 3` at a
late-enough instant yields exactly the first 3 bytes and drops the rest
of the packet. -/
theorem jitter_pop_truncates_witness :
    ((({} : JBConfig).target_delay_ms : Int) ≤ 100 - 0 ∨
      3 ≤ ([⟨[1, 2, 3, 4, 5], 0, 7, 0⟩] : List JBPacket).length) ∧
    3 < ([1, 2, 3, 4, 5] : List Nat).length ∧
    pop {} [⟨[1, 2, 3, 4, 5], 0, 7, 0⟩] 3 100 = some ([1, 2, 3], 3, 7, []) :=
  ⟨by decide, by decide,
    (jitter_pop_truncates.1 {} ⟨[1, 2, 3, 4, 5], 0, 7, 0⟩ [] 3 100
      (by decide) (by decide)).1⟩

/-! ### AES67 validation (C7) -/

/-- C7 counterexample: `validate_aes67` accepts an SDP whose encoding
(`L16`) does not match its bit depth (24) and whose packet time (7000 µs)
is outside {125, 250, 333, 1000, 4000} µs. -/
theorem validate_aes67_counterexample :
    validate_aes67 validateCexInfo = true ∧
    validateCexInfo.encoding = str "L16" ∧
    validateCexInfo.format.bit_depth = 24 ∧
    validateCexInfo.packet_time_us = 7000 := by
  refine ⟨by decide, by decide, by decide, by decide⟩

/-- C7 amended: `validate_aes67` accepts exactly the parses that are
`is_valid` with sample rate in {44100, 48000, 96000}, bit depth in
{16, 24, 32} and encoding in {L16, L24, L32}; it never reads the packet
time, and it does not require the encoding to match the bit depth. -/
theorem validate_aes67_characterization :
    (∀ info : SDPInfo, validate_aes67 info = true ↔
       (info.is_valid = true ∧
        (info.format.sample_rate = 44100 ∨ info.format.sample_rate = 48000 ∨
          info.format.sample_rate = 96000) ∧
        (info.format.bit_depth = 16 ∨ info.format.bit_depth = 24 ∨
          info.format.bit_depth = 32) ∧
        (info.encoding = str "L16" ∨ info.encoding = str "L24" ∨
          info.encoding = str "L32"))) ∧
    (∀ (info : SDPInfo) (ptime : Nat),
       validate_aes67 { info with packet_time_us := ptime } = validate_aes67 info) := by
  constructor
  · intro info
    unfold validate_aes67
    cases hv : info.is_valid with
    | false => simp
    | true => simp only [Bool.not_true, Bool.false_eq_true, if_false, Bool.and_eq_true,
        Bool.or_eq_true, decide_eq_true_eq, true_and]; tauto
  · intro info ptime
    rfl

/-! ### Sequence-gap heuristic (C4) -/

/-- C4: on a packet with sequence `seq` after an observed previous
sequence, the receiver computes `diff = (seq − prev − 1) mod 2^16`, adds
`diff` to `packets_lost` exactly when `0 < diff < 2^15`, and increments
`packets_out_of_order` exactly when `diff` is negative with magnitude
greater than 1 as a signed 16-bit value (that is, when
`2^15 ≤ diff ≤ 2^16 − 2`); injecting sequences 0, 1, 3, 4 counts one
lost packet, and injecting 65534, 65535, 0, 1 across the wrap counts no
loss and no reorder. -/
theorem seq_gap_heuristic :
    (∀ (cfg : JBConfig) (st : RecvState) (seqn ts : Nat) (payload : List Nat)
       (sz : Nat) (now : Int),
       st.last_sequence_valid = true → st.last_sequence < 65536 → seqn < 65536 →
       ((process_rtp_packet cfg st seqn ts payload sz now).stats.packets_lost =
          st.stats.packets_lost +
            (if 0 < (seqn + 65536 - (st.last_sequence + 1)) % 65536 ∧
                (seqn + 65536 - (st.last_sequence + 1)) % 65536 < 32768
             then (seqn + 65536 - (st.last_sequence + 1)) % 65536 else 0) ∧
        (process_rtp_packet cfg st seqn ts payload sz now).stats.packets_out_of_order =
          st.stats.packets_out_of_order +
            (if 32768 ≤ (seqn + 65536 - (st.last_sequence + 1)) % 65536 ∧
                (seqn + 65536 - (st.last_sequence + 1)) % 65536 < 65535
             then 1 else 0))) ∧
    (runSeqs [0, 1, 3, 4]).stats.packets_lost = 1 ∧
    (runSeqs [65534, 65535, 0, 1]).stats.packets_lost = 0 ∧
    (runSeqs [65534, 65535, 0, 1]).stats.packets_out_of_order = 0 := by
  refine ⟨?_, by decide, by decide, by decide⟩
  intro cfg st seqn ts payload sz now hv hp hs
  simp only [process_rtp_packet, hv, if_true]
  constructor
  · split_ifs <;> simp <;> omega
  · split_ifs <;> simp <;> omega

/-- C4 witness: the heuristic equations at previous sequence 1 and new
sequence 3 (`diff = 1`, one packet counted lost). -/
theorem seq_gap_heuristic_witness :
    (⟨{}, [], 1, true⟩ : RecvState).last_sequence_valid = true ∧
    (⟨{}, [], 1, true⟩ : RecvState).last_sequence < 65536 ∧ 3 < 65536 ∧
    ((process_rtp_packet {} ⟨{}, [], 1, true⟩ 3 144 [3] 15 0).stats.packets_lost =
       (⟨{}, [], 1, true⟩ : RecvState).stats.packets_lost +
         (if 0 < (3 + 65536 - ((⟨{}, [], 1, true⟩ : RecvState).last_sequence + 1)) % 65536 ∧
             (3 + 65536 - ((⟨{}, [], 1, true⟩ : RecvState).last_sequence + 1)) % 65536 < 32768
          then (3 + 65536 - ((⟨{}, [], 1, true⟩ : RecvState).last_sequence + 1)) % 65536
          else 0) ∧
     (process_rtp_packet {} ⟨{}, [], 1, true⟩ 3 144 [3] 15 0).stats.packets_out_of_order =
       (⟨{}, [], 1, true⟩ : RecvState).stats.packets_out_of_order +
         (if 32768 ≤ (3 + 65536 - ((⟨{}, [], 1, true⟩ : RecvState).last_sequence + 1)) % 65536 ∧
             (3 + 65536 - ((⟨{}, [], 1, true⟩ : RecvState).last_sequence + 1)) % 65536 < 65535
          then 1 else 0)) :=
  ⟨by decide, by decide, by decide,
    seq_gap_heuristic.1 {} ⟨{}, [], 1, true⟩ 3 144 [3] 15 0 (by decide) (by decide) (by decide)⟩

/-! ### NMOS PATCH handler (C9) -/

/-- C9: a PATCH to a `/staged` connection path returns 200 with the fixed
body `{"master_enable": true}` — the request body is never parsed, no
staged parameters are written (the handler ignores its `request`
argument beyond locating the body; the staging call is an unimplemented
TODO in the source), and the response does not echo the applied body. -/
theorem patch_staged_returns_canned_body :
    handle_connection_api (str "PATCH")
        (str "/x-nmos/connection/v1.1/single/receivers/a1b2/staged")
        (str "\x7b\"transport_params\":[\x7b\"destination_port\":5004\x7d]\x7d") =
      str "HTTP/1.1 200 OK\r\nContent-Type: application/json\r\nContent-Length: 23\r\n\r\n\x7b\"master_enable\": true\x7d" ∧
    (∀ (method path r1 r2 : List Char),
       handle_connection_api method path r1 = handle_connection_api method path r2) := by
  refine ⟨by decide, fun method path r1 r2 => rfl⟩

/-! ### Sender packet stream (C8) -/

/-- The fuel of `sendPacketsAux` is irrelevant as long as it exceeds the
remaining byte count. -/
theorem sendPacketsAux_congr :
    ∀ (f1 f2 bpp spp seq ts rem : Nat), rem < f1 → rem < f2 →
      sendPacketsAux f1 bpp spp seq ts rem = sendPacketsAux f2 bpp spp seq ts rem := by
  intro f1
  induction f1 with
  | zero => intro f2 bpp spp seq ts rem h1; omega
  | succ f1 ih =>
    intro f2 bpp spp seq ts rem h1 h2
    cases f2 with
    | zero => omega
    | succ f2 =>
      rw [sendPacketsAux, sendPacketsAux]
      split_ifs with h
      · rw [ih f2 bpp spp ((seq + 1) % 2 ^ 64) ((ts + spp) % 2 ^ 32) (rem - bpp)
          (by omega) (by omega)]
      · rfl

/-- Unfolding rule for `sendPackets`, mirroring one iteration of the
source's while loop. -/
theorem sendPackets_eq (bpp spp seq ts rem : Nat) :
    sendPackets bpp spp seq ts rem =
      if 0 < bpp ∧ bpp ≤ rem then
        ((seq % 2 ^ 16, ts) ::
           (sendPackets bpp spp ((seq + 1) % 2 ^ 64) ((ts + spp) % 2 ^ 32) (rem - bpp)).1,
         (sendPackets bpp spp ((seq + 1) % 2 ^ 64) ((ts + spp) % 2 ^ 32) (rem - bpp)).2)
      else ([], seq, ts) := by
  show sendPacketsAux (rem + 1) bpp spp seq ts rem = _
  rw [sendPacketsAux]
  split_ifs with h
  · rw [sendPacketsAux_congr rem (rem - bpp + 1) bpp spp ((seq + 1) % 2 ^ 64)
      ((ts + spp) % 2 ^ 32) (rem - bpp) (by omega) (by omega)]
    rfl
  · rfl

/-- Closed form of the send loop: starting from counters `(seq, ts)` with
`ts < 2^32`, the loop emits `rem / bpp` packets, packet `i` carrying
sequence `(seq + i) mod 2^16` and timestamp `(ts + spp·i) mod 2^32`, and
leaves the counters advanced by the packet count. -/
theorem sendPackets_spec (bpp spp : Nat) (hb : 0 < bpp) :
    ∀ (rem seq ts : Nat), ts < 2 ^ 32 →
      (sendPackets bpp spp seq ts rem).1 =
        (List.range (rem / bpp)).map
          (fun i => ((seq + i) % 2 ^ 16, (ts + spp * i) % 2 ^ 32)) ∧
      (sendPackets bpp spp seq ts rem).2.1 % 2 ^ 16 = (seq + rem / bpp) % 2 ^ 16 ∧
      (sendPackets bpp spp seq ts rem).2.2 = (ts + spp * (rem / bpp)) % 2 ^ 32 := by
  intro rem
  induction rem using Nat.strong_induction_on with
  | _ rem ih =>
    intro seq ts hts
    by_cases hle : bpp ≤ rem
    · have hdiv : rem / bpp = (rem - bpp) / bpp + 1 := Nat.div_eq_sub_div hb hle
      obtain ⟨h1, h2, h3⟩ := ih (rem - bpp) (by omega) ((seq + 1) % 2 ^ 64)
        ((ts + spp) % 2 ^ 32) (Nat.mod_lt _ (by norm_num))
      rw [sendPackets_eq, if_pos ⟨hb, hle⟩]
      refine ⟨?_, ?_, ?_⟩
      · show (seq % 2 ^ 16, ts) :: _ = _
        rw [h1, hdiv, List.range_succ_eq_map, List.map_cons, List.map_map]
        have hhead : ((seq + 0) % 2 ^ 16, (ts + spp * 0) % 2 ^ 32) = (seq % 2 ^ 16, ts) := by
          rw [Prod.mk.injEq]
          exact ⟨by omega, by rw [Nat.mul_zero, Nat.add_zero, Nat.mod_eq_of_lt hts]⟩
        rw [hhead]
        refine congrArg _ (List.map_congr_left fun i _ => ?_)
        have hmul : spp * (i + 1) = spp * i + spp := by ring
        rw [Function.comp_apply, Prod.mk.injEq]
        refine ⟨by omega, by rw [hmul]; omega⟩
      · show (sendPackets bpp spp _ _ _).2.1 % 2 ^ 16 = _
        rw [h2, hdiv]
        omega
      · show (sendPackets bpp spp _ _ _).2.2 = _
        rw [h3, hdiv]
        have hmul : spp * ((rem - bpp) / bpp + 1) = spp * ((rem - bpp) / bpp) + spp := by ring
        rw [hmul]
        omega
    · rw [sendPackets_eq, if_neg (by omega), Nat.div_eq_of_lt (by omega)]
      refine ⟨by simp, by simp, ?_⟩
      show ts = (ts + spp * 0) % 2 ^ 32
      rw [Nat.mul_zero, Nat.add_zero, Nat.mod_eq_of_lt hts]

/-- Closed form of an unsynchronized sender session: the packets form one
arithmetic stream, packet `j` (globally numbered) carrying
sequence `(seq0 + j) mod 2^16` and timestamp `(ts0 + spp·j) mod 2^32`. -/
theorem runSenderUnsync_spec (cfg : SenderCfg) (hb : 0 < cfg.bytes_per_packet) :
    ∀ (sizes : List Nat) (st : SenderSt), st.ts < 2 ^ 32 →
      (runSenderUnsync cfg st sizes).1 =
        (List.range ((sizes.map (fun s => s / cfg.bytes_per_packet)).sum)).map
          (fun j => ((st.seq + j) % 2 ^ 16,
                     (st.ts + cfg.samples_per_packet * j) % 2 ^ 32)) := by
  intro sizes
  induction sizes with
  | nil => intro st _; simp [runSenderUnsync, runSender]
  | cons sz rest ih =>
    intro st hts
    obtain ⟨h1, h2, h3⟩ :=
      sendPackets_spec cfg.bytes_per_packet cfg.samples_per_packet hb sz st.seq st.ts hts
    have hts2 : (on_audio_data cfg st none sz).2.ts < 2 ^ 32 := by
      show (sendPackets cfg.bytes_per_packet cfg.samples_per_packet st.seq st.ts sz).2.2 < 2 ^ 32
      rw [h3]; exact Nat.mod_lt _ (by norm_num)
    have hrest := ih (on_audio_data cfg st none sz).2 hts2
    have hseq : (on_audio_data cfg st none sz).2.seq =
        (sendPackets cfg.bytes_per_packet cfg.samples_per_packet st.seq st.ts sz).2.1 := rfl
    have htsv : (on_audio_data cfg st none sz).2.ts =
        (sendPackets cfg.bytes_per_packet cfg.samples_per_packet st.seq st.ts sz).2.2 := rfl
    rw [hseq, htsv, h3] at hrest
    have hsplit : (runSenderUnsync cfg st (sz :: rest)).1 =
        (on_audio_data cfg st none sz).1 ++
          (runSenderUnsync cfg (on_audio_data cfg st none sz).2 rest).1 := rfl
    have hfst : (on_audio_data cfg st none sz).1 =
        (sendPackets cfg.bytes_per_packet cfg.samples_per_packet st.seq st.ts sz).1 := rfl
    rw [hsplit, hrest, hfst, h1, List.map_cons, List.sum_cons, List.range_add,
      List.map_append, List.map_map]
    congr 1
    refine List.map_congr_left fun j _ => ?_
    have hmul : cfg.samples_per_packet * (sz / cfg.bytes_per_packet + j) =
        cfg.samples_per_packet * (sz / cfg.bytes_per_packet) +
          cfg.samples_per_packet * j := by ring
    rw [Function.comp_apply, Prod.mk.injEq]
    constructor
    · omega
    · rw [hmul]; omega

/-- C8 counterexample: with 48 kHz / 1 ms / mono 16-bit configuration
(96 bytes per packet), one capture buffer of 96·65537 bytes makes the
sender emit packets 0 and 65536 with the same sequence number, so
`(q.seq − p.seq) mod 2^16 = 0`, refuting the claim's strict positivity
for packets 65536 apart. -/
theorem sender_seq_wrap_counterexample :
    ((on_audio_data cexSenderCfg ⟨0, 0⟩ none 6291552).1[0]?).map Prod.fst = some 0 ∧
    ((on_audio_data cexSenderCfg ⟨0, 0⟩ none 6291552).1[65536]?).map Prod.fst = some 0 ∧
    (0 + 2 ^ 16 - 0) % 2 ^ 16 = 0 := by
  have hspec := (sendPackets_spec 96 48 (by norm_num) 6291552 0 0 (by norm_num)).1
  have hbp : cexSenderCfg.bytes_per_packet = 96 := rfl
  have hspp : cexSenderCfg.samples_per_packet = 48 := rfl
  have hform : (on_audio_data cexSenderCfg ⟨0, 0⟩ none 6291552).1 =
      (sendPackets cexSenderCfg.bytes_per_packet cexSenderCfg.samples_per_packet
        0 0 6291552).1 := rfl
  rw [hform, hbp, hspp, hspec]
  have hdiv : 6291552 / 96 = 65537 := by norm_num
  rw [hdiv]
  refine ⟨?_, ?_, by norm_num⟩
  · rw [List.getElem?_map, List.getElem?_range (by norm_num)]
    rfl
  · rw [List.getElem?_map, List.getElem?_range (by norm_num)]
    rfl

/-- C8 amended: with `samples_per_packet` and `bytes_per_packet` computed
in wrapping 32-bit arithmetic as the code does, and provided the wrapped
`bytes_per_packet` is nonzero (when it wraps to 0 the code's send loop
never terminates), every capture buffer is sliced into
`size / bytes_per_packet` full packets (residual bytes dropped), and in an
unsynchronized session any two packets `p` before `q` that are `Δ`
emissions apart satisfy
`(q.seq − p.seq) mod 2^16 = Δ mod 2^16` and
`(q.ts − p.ts) mod 2^32 = (samples_per_packet · Δ) mod 2^32`; the strict
form `(q.seq − p.seq) mod 2^16 > 0` holds only when `Δ` is not a
multiple of `2^16`, and with a synchronized PTP clock the timestamp
relation is set by the clock reading instead. -/
theorem sender_packet_congruences (cfg : SenderCfg) (st : SenderSt) (sizes : List Nat)
    (hb : 0 < cfg.bytes_per_packet) (hts : st.ts < 2 ^ 32) :
    (runSenderUnsync cfg st sizes).1.length =
      (sizes.map (fun s => s / cfg.bytes_per_packet)).sum ∧
    ∀ (i j : Nat) (hij : i ≤ j) (hj : j < (runSenderUnsync cfg st sizes).1.length),
      (((runSenderUnsync cfg st sizes).1.get ⟨j, hj⟩).1 + 2 ^ 16 -
          ((runSenderUnsync cfg st sizes).1.get ⟨i, Nat.lt_of_le_of_lt hij hj⟩).1) % 2 ^ 16 =
        (j - i) % 2 ^ 16 ∧
      (((runSenderUnsync cfg st sizes).1.get ⟨j, hj⟩).2 + 2 ^ 32 -
          ((runSenderUnsync cfg st sizes).1.get ⟨i, Nat.lt_of_le_of_lt hij hj⟩).2) % 2 ^ 32 =
        cfg.samples_per_packet * (j - i) % 2 ^ 32 := by
  have hspec := runSenderUnsync_spec cfg hb sizes st hts
  constructor
  · rw [hspec, List.length_map, List.length_range]
  · intro i j hij hj
    have hjlt : j < (sizes.map (fun s => s / cfg.bytes_per_packet)).sum := by
      rw [hspec, List.length_map, List.length_range] at hj
      exact hj
    have hilt : i < (sizes.map (fun s => s / cfg.bytes_per_packet)).sum :=
      Nat.lt_of_le_of_lt hij hjlt
    have hgj : ((runSenderUnsync cfg st sizes).1.get ⟨j, hj⟩) =
        ((st.seq + j) % 2 ^ 16, (st.ts + cfg.samples_per_packet * j) % 2 ^ 32) := by
      rw [List.get_eq_getElem]
      conv in (runSenderUnsync cfg st sizes).1 => rw [hspec]
      rw [List.getElem_map, List.getElem_range]
    have hgi : ((runSenderUnsync cfg st sizes).1.get ⟨i, Nat.lt_of_le_of_lt hij hj⟩) =
        ((st.seq + i) % 2 ^ 16, (st.ts + cfg.samples_per_packet * i) % 2 ^ 32) := by
      rw [List.get_eq_getElem]
      conv in (runSenderUnsync cfg st sizes).1 => rw [hspec]
      rw [List.getElem_map, List.getElem_range]
    rw [hgj, hgi]
    have hmul : cfg.samples_per_packet * j =
        cfg.samples_per_packet * i + cfg.samples_per_packet * (j - i) := by
      rw [← Nat.mul_add, Nat.add_sub_cancel' hij]
    constructor
    · omega
    · rw [hmul]; omega

/-- C8 witness: the congruences for a 192-byte buffer (2 packets) in the
48 kHz / 1 ms / mono 16-bit configuration. -/
theorem sender_packet_congruences_witness :
    0 < cexSenderCfg.bytes_per_packet ∧ (⟨0, 0⟩ : SenderSt).ts < 2 ^ 32 ∧
    (runSenderUnsync cexSenderCfg ⟨0, 0⟩ [192]).1.length =
      ([192].map (fun s => s / cexSenderCfg.bytes_per_packet)).sum :=
  ⟨by decide, by decide,
    (sender_packet_congruences cexSenderCfg ⟨0, 0⟩ [192] (by decide) (by decide)).1⟩

/-! ### SDP round-trip machinery (C6)

The lemmas below symbolically execute `parse` on the documents `generate`
emits: first facts about decimal printing, then exact-span lemmas for the
greedy matchers, then one lemma per generated line. -/

theorem digitChar_toNat {d : Nat} (h : d < 10) : (Nat.digitChar d).toNat = 48 + d := by
  interval_cases d <;> decide

theorem digitChar_isDigit {d : Nat} (h : d < 10) : isDigitC (Nat.digitChar d) = true := by
  interval_cases d <;> decide

/-- The fuel of `decDigitsAux` is irrelevant once it exceeds the number. -/
theorem decDigitsAux_congr :
    ∀ (f1 f2 n : Nat), n < f1 → n < f2 → decDigitsAux f1 n = decDigitsAux f2 n := by
  intro f1
  induction f1 with
  | zero => intro f2 n h1; omega
  | succ f1 ih =>
    intro f2 n h1 h2
    cases f2 with
    | zero => omega
    | succ f2 =>
      rw [decDigitsAux, decDigitsAux]
      split_ifs with h
      · rfl
      · have hd : n / 10 < n := Nat.div_lt_self (by omega) (by omega)
        rw [ih f2 (n / 10) (by omega) (by omega)]

/-- Unfolding rule for `decDigits`. -/
theorem decDigits_eq (n : Nat) :
    decDigits n =
      if n < 10 then [Nat.digitChar n]
      else decDigits (n / 10) ++ [Nat.digitChar (n % 10)] := by
  show decDigitsAux (n + 1) n = _
  rw [decDigitsAux]
  split_ifs with h
  · rfl
  · have hd : n / 10 < n := Nat.div_lt_self (by omega) (by omega)
    rw [decDigitsAux_congr n (n / 10 + 1) (n / 10) (by omega) (by omega)]
    rfl

theorem decDigits_all_digit (n : Nat) : ∀ c ∈ decDigits n, isDigitC c = true := by
  induction n using Nat.strong_induction_on with
  | _ n ih =>
    rw [decDigits_eq]
    split_ifs with h
    · intro c hc
      rw [List.mem_singleton] at hc
      rw [hc]
      exact digitChar_isDigit h
    · intro c hc
      rcases List.mem_append.mp hc with h1 | h2
      · exact ih (n / 10) (Nat.div_lt_self (by omega) (by omega)) c h1
      · rw [List.mem_singleton] at h2
        rw [h2]
        exact digitChar_isDigit (Nat.mod_lt _ (by omega))

theorem decDigits_ne_nil (n : Nat) : decDigits n ≠ [] := by
  rw [decDigits_eq]
  split_ifs <;> simp

theorem decToNat_concat (l : List Char) (c : Char) :
    decToNat (l ++ [c]) = decToNat l * 10 + (c.toNat - 48) := by
  unfold decToNat
  rw [List.foldl_append]
  rfl

/-- Printing then reading a decimal number is the identity. -/
theorem decToNat_decDigits (n : Nat) : decToNat (decDigits n) = n := by
  induction n using Nat.strong_induction_on with
  | _ n ih =>
    rw [decDigits_eq]
    split_ifs with h
    · show 0 * 10 + ((Nat.digitChar n).toNat - 48) = n
      rw [digitChar_toNat h]
      omega
    · rw [decToNat_concat, ih (n / 10) (Nat.div_lt_self (by omega) (by omega)),
        digitChar_toNat (Nat.mod_lt _ (by omega))]
      omega

theorem digit_not_space {c : Char} (h : isDigitC c = true) : isSpaceC c = false := by
  simp only [isDigitC, Bool.and_eq_true, decide_eq_true_eq] at h
  simp only [isSpaceC, Bool.or_eq_false_iff, decide_eq_false_iff_not]
  omega

theorem digitdot_not_space {c : Char} (h : isDigitDotC c = true) : isSpaceC c = false := by
  simp only [isDigitDotC, isDigitC, Bool.or_eq_true, Bool.and_eq_true,
    decide_eq_true_eq] at h
  simp only [isSpaceC, Bool.or_eq_false_iff, decide_eq_false_iff_not]
  omega

theorem word_not_space {c : Char} (h : isWordC c = true) : isSpaceC c = false := by
  simp only [isWordC, isDigitC, Bool.or_eq_true, Bool.and_eq_true,
    decide_eq_true_eq] at h
  simp only [isSpaceC, Bool.or_eq_false_iff, decide_eq_false_iff_not]
  omega

theorem nonspace_ne_newline {c : Char} (h : isSpaceC c = false) : c ≠ '\n' := by
  intro hc
  rw [hc] at h
  exact absurd h (by decide)

theorem digit_ne_newline {c : Char} (h : isDigitC c = true) : c ≠ '\n' :=
  nonspace_ne_newline (digit_not_space h)

theorem digitdot_ne_newline {c : Char} (h : isDigitDotC c = true) : c ≠ '\n' :=
  nonspace_ne_newline (digitdot_not_space h)

/-! Greedy-span lemmas: in the generated documents every `X+` piece is a
block of `X` characters followed by a character outside `X`, so the
greedy matchers consume exactly the block. -/

theorem takeWhile_append_all {P : Char → Bool} :
    ∀ {l r : List Char}, (∀ c ∈ l, P c = true) → headNotP P r →
      (l ++ r).takeWhile P = l ∧ (l ++ r).dropWhile P = r := by
  intro l
  induction l with
  | nil =>
    intro r _ hr
    cases r with
    | nil => exact ⟨rfl, rfl⟩
    | cons c cs =>
      have hc : P c = false := hr
      simp [List.takeWhile_cons, List.dropWhile_cons, hc]
  | cons a l ih =>
    intro r hl hr
    have ha : P a = true := hl a (List.mem_cons_self a l)
    have h := ih (fun c hc => hl c (List.mem_cons_of_mem a hc)) hr
    simp [List.takeWhile_cons, List.dropWhile_cons, ha, h.1, h.2]

theorem plusC_exact {P : Char → Bool} {l r : List Char}
    (h1 : ∀ c ∈ l, P c = true) (h2 : headNotP P r) (h3 : l ≠ []) :
    plusC P (l ++ r) = some (l, r) := by
  obtain ⟨ht, hd⟩ := takeWhile_append_all h1 h2
  unfold plusC
  rw [ht, hd]
  cases l with
  | nil => exact absurd rfl h3
  | cons a l => rfl

theorem plusC_cons_single {P : Char → Bool} {c : Char} {r : List Char}
    (hc : P c = true) (hr : headNotP P r) : plusC P (c :: r) = some ([c], r) :=
  plusC_exact (l := [c])
    (by intro x hx; rw [List.mem_singleton] at hx; rw [hx]; exact hc) hr (by simp)

theorem plusC_all {P : Char → Bool} {l : List Char}
    (h1 : ∀ c ∈ l, P c = true) (h3 : l ≠ []) : plusC P l = some (l, []) := by
  have h := plusC_exact h1 (show headNotP P [] from trivial) h3
  simpa using h

theorem plusC_digits {r : List Char} (n : Nat) (hr : headNotP isDigitC r) :
    plusC isDigitC (decDigits n ++ r) = some (decDigits n, r) :=
  plusC_exact (decDigits_all_digit n) hr (decDigits_ne_nil n)

theorem headNotP_append_left {P : Char → Bool} {l r : List Char}
    (h1 : l ≠ []) (h2 : ∀ c ∈ l, P c = false) : headNotP P (l ++ r) := by
  cases l with
  | nil => exact absurd rfl h1
  | cons c cs => exact h2 c (List.mem_cons_self c cs)

theorem headNotP_space_digits (n : Nat) (r : List Char) :
    headNotP isSpaceC (decDigits n ++ r) :=
  headNotP_append_left (decDigits_ne_nil n)
    (fun c hc => digit_not_space (decDigits_all_digit n c hc))

theorem dropLit_pre : ∀ (pat r : List Char), dropLit pat (pat ++ r) = some r := by
  intro pat
  induction pat with
  | nil => intro r; rfl
  | cons p ps ih =>
    intro r
    show (if p = p then dropLit ps (ps ++ r) else none) = some r
    rw [if_pos rfl, ih]

theorem searchO_cons_some {α : Type} {f : List Char → Option α} {c : Char}
    {cs : List Char} {r : α} (h : f (c :: cs) = some r) :
    searchO f (c :: cs) = some r := by
  simp only [searchO, h]

/-! Line splitting. -/

theorem getLines_append {l rest : List Char} (h : noNL l) :
    getLines (l ++ '\n' :: rest) = l :: getLines rest := by
  induction l with
  | nil => simp [getLines]
  | cons c cs ih =>
    have hc : c ≠ '\n' := h c (List.mem_cons_self c cs)
    have ih2 := ih (fun x hx => h x (List.mem_cons_of_mem c hx))
    show getLines (c :: (cs ++ '\n' :: rest)) = _
    rw [getLines]
    rw [if_neg hc, ih2]

theorem stripCR_concat (l : List Char) : stripCR (l ++ ['\r']) = l := by
  unfold stripCR
  rw [List.getLast?_concat]
  show (if '\r' = '\r' then (l ++ ['\r']).dropLast else l ++ ['\r']) = l
  rw [if_pos rfl, List.dropLast_concat]

theorem noNL_nil : noNL [] := by intro c hc; cases hc

theorem noNL_cons {c : Char} {l : List Char} (h1 : c ≠ '\n') (h2 : noNL l) :
    noNL (c :: l) := by
  intro x hx
  rcases List.mem_cons.mp hx with rfl | hx2
  · exact h1
  · exact h2 x hx2

theorem noNL_append {l r : List Char} (h1 : noNL l) (h2 : noNL r) : noNL (l ++ r) := by
  intro x hx
  rcases List.mem_append.mp hx with hx1 | hx2
  · exact h1 x hx1
  · exact h2 x hx2

theorem noNL_digits (n : Nat) : noNL (decDigits n) :=
  fun c hc => digit_ne_newline (decDigits_all_digit n c hc)

/-- The three encoding names `encoding_name` can produce are nonempty word
strings. -/
theorem encName_word (f : AudioFormat) :
    encoding_name f ≠ [] ∧ ∀ c ∈ encoding_name f, isWordC c = true := by
  unfold encoding_name
  split_ifs <;> exact ⟨by decide, by decide⟩

theorem encName_mem (f : AudioFormat) :
    encoding_name f = str "L16" ∨ encoding_name f = str "L24" ∨
      encoding_name f = str "L32" := by
  unfold encoding_name
  split_ifs <;> simp

/-! Matcher runs on the generated lines. -/

/-- The origin matcher on the generated `o=` line body. -/
theorem matchOrigin_generated (sid : Nat) (addr : List Char)
    (ha1 : addr ≠ []) (ha2 : ∀ c ∈ addr, isSpaceC c = false) :
    matchOriginAt ('o' :: '=' :: '-' :: ' ' :: (decDigits sid ++ (' ' :: (decDigits sid ++
        (' ' :: 'I' :: 'N' :: ' ' :: 'I' :: 'P' :: '4' :: ' ' :: addr))))) =
      some (decDigits sid, addr) := by
  have hna : headNotP isSpaceC addr := by
    cases addr with
    | nil => trivial
    | cons c cs => exact ha2 c (List.mem_cons_self c cs)
  set t1 := ' ' :: 'I' :: 'N' :: ' ' :: 'I' :: 'P' :: '4' :: ' ' :: addr
  set t2 := decDigits sid ++ t1
  set t3 := ' ' :: t2
  set t4 := decDigits sid ++ t3
  set t5 := ' ' :: t4
  have s1 : dropLit (str "o=") ('o' :: '=' :: '-' :: t5) = some ('-' :: t5) := rfl
  have s2 : plusC isNonSpaceC ('-' :: t5) = some (['-'], t5) := rfl
  have s3 : plusC isSpaceC t5 = some ([' '], t4) :=
    plusC_cons_single rfl (headNotP_space_digits sid t3)
  have s4 : plusC isDigitC t4 = some (decDigits sid, t3) := plusC_digits sid rfl
  have s5 : plusC isSpaceC t3 = some ([' '], t2) :=
    plusC_cons_single rfl (headNotP_space_digits sid t1)
  have s6 : plusC isDigitC t2 = some (decDigits sid, t1) := plusC_digits sid rfl
  have s7 : plusC isSpaceC t1 =
      some ([' '], 'I' :: 'N' :: ' ' :: 'I' :: 'P' :: '4' :: ' ' :: addr) := rfl
  have s8 : dropLit (str "IN") ('I' :: 'N' :: ' ' :: 'I' :: 'P' :: '4' :: ' ' :: addr) =
      some (' ' :: 'I' :: 'P' :: '4' :: ' ' :: addr) := rfl
  have s9 : plusC isSpaceC (' ' :: 'I' :: 'P' :: '4' :: ' ' :: addr) =
      some ([' '], 'I' :: 'P' :: '4' :: ' ' :: addr) := rfl
  have s10 : dropLit (str "IP4") ('I' :: 'P' :: '4' :: ' ' :: addr) =
      some (' ' :: addr) := rfl
  have s11 : plusC isSpaceC (' ' :: addr) = some ([' '], addr) :=
    plusC_cons_single rfl hna
  have s12 : plusC isNonSpaceC addr = some (addr, []) :=
    plusC_all (fun c hc => by simp [isNonSpaceC, ha2 c hc]) ha1
  simp only [matchOriginAt, s1, s2, s3, s4, s5, s6, s7, s8, s9, s10, s11, s12,
    Bind.bind, Option.bind, Option.pure_def]

/-- The connection matcher on the generated `c=` line body. -/
theorem matchConn_generated (mcast : List Char)
    (hm1 : mcast ≠ []) (hm2 : ∀ c ∈ mcast, isDigitDotC c = true) :
    matchConnAt ('c' :: '=' :: 'I' :: 'N' :: ' ' :: 'I' :: 'P' :: '4' :: ' ' ::
        (mcast ++ ('/' :: '3' :: '2' :: []))) = some mcast := by
  set t1 := mcast ++ ('/' :: '3' :: '2' :: [])
  have s1 : dropLit (str "c=IN") ('c' :: '=' :: 'I' :: 'N' :: ' ' :: 'I' :: 'P' :: '4' :: ' ' :: t1) =
      some (' ' :: 'I' :: 'P' :: '4' :: ' ' :: t1) := rfl
  have s2 : plusC isSpaceC (' ' :: 'I' :: 'P' :: '4' :: ' ' :: t1) =
      some ([' '], 'I' :: 'P' :: '4' :: ' ' :: t1) := rfl
  have s3 : dropLit (str "IP4") ('I' :: 'P' :: '4' :: ' ' :: t1) = some (' ' :: t1) := rfl
  have s4 : plusC isSpaceC (' ' :: t1) = some ([' '], t1) :=
    plusC_cons_single rfl
      (headNotP_append_left hm1 (fun c hc => digitdot_not_space (hm2 c hc)))
  have s5 : plusC isDigitDotC t1 = some (mcast, '/' :: '3' :: '2' :: []) :=
    plusC_exact hm2 rfl hm1
  simp only [matchConnAt, s1, s2, s3, s4, s5, Bind.bind, Option.bind, Option.pure_def]

/-- The media matcher on the generated `m=` line body. -/
theorem matchMedia_generated (port payload_type : Nat) :
    matchMediaAt ('m' :: '=' :: 'a' :: 'u' :: 'd' :: 'i' :: 'o' :: ' ' ::
        (decDigits port ++ (' ' :: 'R' :: 'T' :: 'P' :: '/' :: 'A' :: 'V' :: 'P' :: ' ' ::
          decDigits payload_type))) = some (decDigits port, decDigits payload_type) := by
  set t1 := ' ' :: 'R' :: 'T' :: 'P' :: '/' :: 'A' :: 'V' :: 'P' :: ' ' :: decDigits payload_type
  set t2 := decDigits port ++ t1
  have s1 : dropLit (str "m=audio") ('m' :: '=' :: 'a' :: 'u' :: 'd' :: 'i' :: 'o' :: ' ' :: t2) =
      some (' ' :: t2) := rfl
  have s2 : plusC isSpaceC (' ' :: t2) = some ([' '], t2) :=
    plusC_cons_single rfl (headNotP_space_digits port t1)
  have s3 : plusC isDigitC t2 = some (decDigits port, t1) := plusC_digits port rfl
  have s4 : plusC isSpaceC t1 =
      some ([' '], 'R' :: 'T' :: 'P' :: '/' :: 'A' :: 'V' :: 'P' :: ' ' :: decDigits payload_type) := rfl
  have s5 : dropLit (str "RTP/AVP")
      ('R' :: 'T' :: 'P' :: '/' :: 'A' :: 'V' :: 'P' :: ' ' :: decDigits payload_type) =
      some (' ' :: decDigits payload_type) := rfl
  have s6 : plusC isSpaceC (' ' :: decDigits payload_type) =
      some ([' '], decDigits payload_type) := by
    refine plusC_cons_single rfl ?_
    have h := headNotP_space_digits payload_type []
    rw [List.append_nil] at h
    exact h
  have s7 : plusC isDigitC (decDigits payload_type) = some (decDigits payload_type, []) :=
    plusC_all (decDigits_all_digit payload_type) (decDigits_ne_nil payload_type)
  simp only [matchMediaAt, s1, s2, s3, s4, s5, s6, s7, Bind.bind, Option.bind,
    Option.pure_def]

/-- The rtpmap matcher on the generated `a=rtpmap:` line body. -/
theorem matchRtpmap_generated (payload_type sr ch : Nat) (enc : List Char)
    (he1 : enc ≠ []) (he2 : ∀ c ∈ enc, isWordC c = true) :
    matchRtpmapAt ('a' :: '=' :: 'r' :: 't' :: 'p' :: 'm' :: 'a' :: 'p' :: ':' ::
        (decDigits payload_type ++ (' ' :: (enc ++ ('/' :: (decDigits sr ++
          ('/' :: decDigits ch))))))) = some (enc, decDigits sr, decDigits ch) := by
  set t1 := '/' :: decDigits ch
  set t2 := decDigits sr ++ t1
  set t3 := '/' :: t2
  set t4 := enc ++ t3
  set t5 := ' ' :: t4
  set t6 := decDigits payload_type ++ t5
  have s1 : dropLit (str "a=rtpmap:")
      ('a' :: '=' :: 'r' :: 't' :: 'p' :: 'm' :: 'a' :: 'p' :: ':' :: t6) = some t6 := rfl
  have s2 : plusC isDigitC t6 = some (decDigits payload_type, t5) :=
    plusC_digits payload_type rfl
  have s3 : plusC isSpaceC t5 = some ([' '], t4) :=
    plusC_cons_single rfl
      (headNotP_append_left he1 (fun c hc => word_not_space (he2 c hc)))
  have s4 : plusC isWordC t4 = some (enc, t3) := plusC_exact he2 rfl he1
  have s5 : dropLit (str "/") t3 = some t2 := rfl
  have s6 : plusC isDigitC t2 = some (decDigits sr, t1) := plusC_digits sr rfl
  have s7 : dropLit (str "/") t1 = some (decDigits ch) := rfl
  have s8 : plusC isDigitC (decDigits ch) = some (decDigits ch, []) :=
    plusC_all (decDigits_all_digit ch) (decDigits_ne_nil ch)
  simp only [matchRtpmapAt, s1, s2, s3, s4, s5, s6, s7, s8, Bind.bind, Option.bind,
    Option.pure_def]

/-! One lemma per generated line. -/

theorem parseLine_vline (info : SDPInfo) : parseLine info (str "v=0\r") = info := rfl

theorem parseLine_tline (info : SDPInfo) : parseLine info (str "t=0 0\r") = info := rfl

theorem parseLine_ptimeline (info : SDPInfo) :
    parseLine info (str "a=ptime:1\r") = { info with packet_time_us := 1000 } := rfl

theorem parseLine_refclkline (info : SDPInfo) :
    parseLine info (str "a=ts-refclk:ptp=IEEE1588-2008\r") = info := rfl

theorem parseLine_mediaclkline (info : SDPInfo) :
    parseLine info (str "a=mediaclk:direct=0\r") = info := rfl

theorem parseLine_sline (info : SDPInfo) (session_name : List Char) :
    parseLine info (str "s=" ++ (session_name ++ str "\r")) =
      { info with session_name := session_name } := by
  rw [show str "s=" ++ (session_name ++ str "\r") =
      ('s' :: '=' :: session_name) ++ ['\r'] from by
    simp [show (str "s=" : List Char) = ['s', '='] from rfl,
      show (str "\r" : List Char) = ['\r'] from rfl]]
  simp only [parseLine, stripCR_concat]
  rw [if_neg (by simp)]
  rw [show ('s' :: '=' :: session_name).take 2 = ['s', '='] from rfl]
  rw [if_pos (by decide)]
  rw [show ('s' :: '=' :: session_name).drop 2 = session_name from rfl]

theorem parseLine_oline (info : SDPInfo) (sid : Nat) (addr : List Char)
    (ha1 : addr ≠ []) (ha2 : ∀ c ∈ addr, isSpaceC c = false) :
    parseLine info (str "o=- " ++ (decDigits sid ++ (str " " ++ (decDigits sid ++
        (str " IN IP4 " ++ (addr ++ str "\r")))))) =
      { info with session_id := decDigits sid, origin_address := addr } := by
  rw [show str "o=- " ++ (decDigits sid ++ (str " " ++ (decDigits sid ++
      (str " IN IP4 " ++ (addr ++ str "\r"))))) =
      ('o' :: '=' :: '-' :: ' ' :: (decDigits sid ++ (' ' :: (decDigits sid ++
        (' ' :: 'I' :: 'N' :: ' ' :: 'I' :: 'P' :: '4' :: ' ' :: addr))))) ++ ['\r'] from by
    simp [show (str "o=- " : List Char) = ['o', '=', '-', ' '] from rfl,
      show (str " " : List Char) = [' '] from rfl,
      show (str " IN IP4 " : List Char) = [' ', 'I', 'N', ' ', 'I', 'P', '4', ' '] from rfl,
      show (str "\r" : List Char) = ['\r'] from rfl]]
  simp only [parseLine, stripCR_concat]
  rw [if_neg (by simp)]
  rw [show ('o' :: '=' :: '-' :: ' ' :: (decDigits sid ++ (' ' :: (decDigits sid ++
      (' ' :: 'I' :: 'N' :: ' ' :: 'I' :: 'P' :: '4' :: ' ' :: addr))))).take 2 =
      ['o', '='] from rfl]
  rw [if_neg (by decide), if_pos (by decide)]
  rw [searchO_cons_some (matchOrigin_generated sid addr ha1 ha2)]

theorem parseLine_cline (info : SDPInfo) (mcast : List Char)
    (hm1 : mcast ≠ []) (hm2 : ∀ c ∈ mcast, isDigitDotC c = true) :
    parseLine info (str "c=IN IP4 " ++ (mcast ++ str "/32\r")) =
      { info with source_ip := mcast } := by
  rw [show str "c=IN IP4 " ++ (mcast ++ str "/32\r") =
      ('c' :: '=' :: 'I' :: 'N' :: ' ' :: 'I' :: 'P' :: '4' :: ' ' ::
        (mcast ++ ('/' :: '3' :: '2' :: []))) ++ ['\r'] from by
    simp [show (str "c=IN IP4 " : List Char) = ['c', '=', 'I', 'N', ' ', 'I', 'P', '4', ' '] from rfl,
      show (str "/32\r" : List Char) = ['/', '3', '2', '\r'] from rfl]]
  simp only [parseLine, stripCR_concat]
  rw [if_neg (by simp)]
  rw [show ('c' :: '=' :: 'I' :: 'N' :: ' ' :: 'I' :: 'P' :: '4' :: ' ' ::
      (mcast ++ ('/' :: '3' :: '2' :: []))).take 2 = ['c', '='] from rfl]
  rw [if_neg (by decide), if_neg (by decide), if_pos (by decide)]
  rw [searchO_cons_some (matchConn_generated mcast hm1 hm2)]

theorem parseLine_mline (info : SDPInfo) (port payload_type : Nat) :
    parseLine info (str "m=audio " ++ (decDigits port ++ (str " RTP/AVP " ++
        (decDigits payload_type ++ str "\r")))) =
      { info with port := decToNat (decDigits port) % 2 ^ 16,
                  payload_type := decToNat (decDigits payload_type) % 2 ^ 8 } := by
  rw [show str "m=audio " ++ (decDigits port ++ (str " RTP/AVP " ++
      (decDigits payload_type ++ str "\r"))) =
      ('m' :: '=' :: 'a' :: 'u' :: 'd' :: 'i' :: 'o' :: ' ' ::
        (decDigits port ++ (' ' :: 'R' :: 'T' :: 'P' :: '/' :: 'A' :: 'V' :: 'P' :: ' ' ::
          decDigits payload_type))) ++ ['\r'] from by
    simp [show (str "m=audio " : List Char) = ['m', '=', 'a', 'u', 'd', 'i', 'o', ' '] from rfl,
      show (str " RTP/AVP " : List Char) = [' ', 'R', 'T', 'P', '/', 'A', 'V', 'P', ' '] from rfl,
      show (str "\r" : List Char) = ['\r'] from rfl]]
  simp only [parseLine, stripCR_concat]
  rw [if_neg (by simp)]
  rw [show ('m' :: '=' :: 'a' :: 'u' :: 'd' :: 'i' :: 'o' :: ' ' ::
      (decDigits port ++ (' ' :: 'R' :: 'T' :: 'P' :: '/' :: 'A' :: 'V' :: 'P' :: ' ' ::
        decDigits payload_type))).take 2 = ['m', '='] from rfl]
  rw [if_neg (by decide), if_neg (by decide), if_neg (by decide), if_pos (by decide)]
  rw [searchO_cons_some (matchMedia_generated port payload_type)]

theorem parseLine_rtpmapline (info : SDPInfo) (payload_type sr ch : Nat) (enc : List Char)
    (he1 : enc ≠ []) (he2 : ∀ c ∈ enc, isWordC c = true) :
    parseLine info (str "a=rtpmap:" ++ (decDigits payload_type ++ (str " " ++ (enc ++
        (str "/" ++ (decDigits sr ++ (str "/" ++ (decDigits ch ++ str "\r")))))))) =
      { info with
          encoding := enc,
          format :=
            if enc = str "L16" then
              { info.format with sample_rate := decToNat (decDigits sr) % 2 ^ 32,
                                 channels := decToNat (decDigits ch) % 2 ^ 8,
                                 bit_depth := 16 }
            else if enc = str "L24" then
              { info.format with sample_rate := decToNat (decDigits sr) % 2 ^ 32,
                                 channels := decToNat (decDigits ch) % 2 ^ 8,
                                 bit_depth := 24 }
            else if enc = str "L32" then
              { info.format with sample_rate := decToNat (decDigits sr) % 2 ^ 32,
                                 channels := decToNat (decDigits ch) % 2 ^ 8,
                                 bit_depth := 32 }
            else
              { info.format with sample_rate := decToNat (decDigits sr) % 2 ^ 32,
                                 channels := decToNat (decDigits ch) % 2 ^ 8 } } := by
  rw [show str "a=rtpmap:" ++ (decDigits payload_type ++ (str " " ++ (enc ++
      (str "/" ++ (decDigits sr ++ (str "/" ++ (decDigits ch ++ str "\r"))))))) =
      ('a' :: '=' :: 'r' :: 't' :: 'p' :: 'm' :: 'a' :: 'p' :: ':' ::
        (decDigits payload_type ++ (' ' :: (enc ++ ('/' :: (decDigits sr ++
          ('/' :: decDigits ch))))))) ++ ['\r'] from by
    simp [show (str "a=rtpmap:" : List Char) = ['a', '=', 'r', 't', 'p', 'm', 'a', 'p', ':'] from rfl,
      show (str " " : List Char) = [' '] from rfl,
      show (str "/" : List Char) = ['/'] from rfl,
      show (str "\r" : List Char) = ['\r'] from rfl]]
  simp only [parseLine, stripCR_concat]
  rw [if_neg (by simp)]
  rw [show ('a' :: '=' :: 'r' :: 't' :: 'p' :: 'm' :: 'a' :: 'p' :: ':' ::
      (decDigits payload_type ++ (' ' :: (enc ++ ('/' :: (decDigits sr ++
        ('/' :: decDigits ch))))))).take 2 = ['a', '='] from rfl]
  rw [if_neg (by decide), if_neg (by decide), if_neg (by decide), if_neg (by decide)]
  rw [show ('a' :: '=' :: 'r' :: 't' :: 'p' :: 'm' :: 'a' :: 'p' :: ':' ::
      (decDigits payload_type ++ (' ' :: (enc ++ ('/' :: (decDigits sr ++
        ('/' :: decDigits ch))))))).take 9 =
      ['a', '=', 'r', 't', 'p', 'm', 'a', 'p', ':'] from rfl]
  rw [if_pos (by decide)]
  rw [searchO_cons_some (matchRtpmap_generated payload_type sr ch enc he1 he2)]

set_option maxHeartbeats 3200000 in
/-- C6: parsing a generated SDP document and regenerating from the parsed
fields reproduces the document exactly (hence semantically), for every
well-formed generator input: a nonempty dotted-decimal multicast address,
a nonempty whitespace-free origin address, a session name without line
feeds, and numeric fields within their C++ types (`port` 16-bit,
`payload_type` 8-bit, `channels` 8-bit, `sample_rate` within `int` for
`stoi`). -/
theorem sdp_roundtrip
    (multicast_ip origin_address session_name : List Char)
    (port payload_type session_id : Nat) (format : AudioFormat)
    (hm1 : multicast_ip ≠ []) (hm2 : ∀ c ∈ multicast_ip, isDigitDotC c = true)
    (ha1 : origin_address ≠ []) (ha2 : ∀ c ∈ origin_address, isSpaceC c = false)
    (hs : ∀ c ∈ session_name, c ≠ '\n')
    (hp : port < 2 ^ 16) (hpt : payload_type < 2 ^ 8)
    (hsr : format.sample_rate < 2 ^ 31) (hch : format.channels < 2 ^ 8) :
    regenerate (parse (generate multicast_ip port payload_type format session_name
        session_id origin_address)) =
      generate multicast_ip port payload_type format session_name session_id
        origin_address := by
  obtain ⟨he1, he2⟩ := encName_word format
  have hnadr : noNL origin_address := fun c hc => nonspace_ne_newline (ha2 c hc)
  have hnmc : noNL multicast_ip := fun c hc => digitdot_ne_newline (hm2 c hc)
  have hnenc : noNL (encoding_name format) := fun c hc =>
    nonspace_ne_newline (word_not_space (he2 c hc))
  have hdoc : generate multicast_ip port payload_type format session_name session_id
      origin_address =
      str "v=0\r" ++ '\n' ::
      ((str "o=- " ++ (decDigits session_id ++ (str " " ++ (decDigits session_id ++
        (str " IN IP4 " ++ (origin_address ++ str "\r")))))) ++ '\n' ::
      ((str "s=" ++ (session_name ++ str "\r")) ++ '\n' ::
      ((str "c=IN IP4 " ++ (multicast_ip ++ str "/32\r")) ++ '\n' ::
      (str "t=0 0\r" ++ '\n' ::
      ((str "m=audio " ++ (decDigits port ++ (str " RTP/AVP " ++
        (decDigits payload_type ++ str "\r")))) ++ '\n' ::
      ((str "a=rtpmap:" ++ (decDigits payload_type ++ (str " " ++ (encoding_name format ++
        (str "/" ++ (decDigits format.sample_rate ++ (str "/" ++
          (decDigits format.channels ++ str "\r")))))))) ++ '\n' ::
      (str "a=ptime:1\r" ++ '\n' ::
      (str "a=ts-refclk:ptp=IEEE1588-2008\r" ++ '\n' ::
      (str "a=mediaclk:direct=0\r" ++ '\n' :: []))))))))) := by
    simp [generate,
      show (str "v=0\r\n" : List Char) = str "v=0\r" ++ ['\n'] from rfl,
      show (str "\r\n" : List Char) = str "\r" ++ ['\n'] from rfl,
      show (str "/32\r\n" : List Char) = str "/32\r" ++ ['\n'] from rfl,
      show (str "t=0 0\r\n" : List Char) = str "t=0 0\r" ++ ['\n'] from rfl,
      show (str "a=ptime:1\r\n" : List Char) = str "a=ptime:1\r" ++ ['\n'] from rfl,
      show (str "a=ts-refclk:ptp=IEEE1588-2008\r\n" : List Char) =
        str "a=ts-refclk:ptp=IEEE1588-2008\r" ++ ['\n'] from rfl,
      show (str "a=mediaclk:direct=0\r\n" : List Char) =
        str "a=mediaclk:direct=0\r" ++ ['\n'] from rfl]
  have hlines : getLines (generate multicast_ip port payload_type format session_name
      session_id origin_address) =
      [str "v=0\r",
       str "o=- " ++ (decDigits session_id ++ (str " " ++ (decDigits session_id ++
         (str " IN IP4 " ++ (origin_address ++ str "\r"))))),
       str "s=" ++ (session_name ++ str "\r"),
       str "c=IN IP4 " ++ (multicast_ip ++ str "/32\r"),
       str "t=0 0\r",
       str "m=audio " ++ (decDigits port ++ (str " RTP/AVP " ++
         (decDigits payload_type ++ str "\r"))),
       str "a=rtpmap:" ++ (decDigits payload_type ++ (str " " ++ (encoding_name format ++
         (str "/" ++ (decDigits format.sample_rate ++ (str "/" ++
           (decDigits format.channels ++ str "\r"))))))),
       str "a=ptime:1\r",
       str "a=ts-refclk:ptp=IEEE1588-2008\r",
       str "a=mediaclk:direct=0\r"] := by
    rw [hdoc]
    rw [getLines_append (by decide)]
    rw [getLines_append (noNL_append (by decide) (noNL_append (noNL_digits _)
      (noNL_append (by decide) (noNL_append (noNL_digits _)
        (noNL_append (by decide) (noNL_append hnadr (by decide)))))))]
    rw [getLines_append (noNL_append (by decide) (noNL_append hs (by decide)))]
    rw [getLines_append (noNL_append (by decide) (noNL_append hnmc (by decide)))]
    rw [getLines_append (by decide)]
    rw [getLines_append (noNL_append (by decide) (noNL_append (noNL_digits _)
      (noNL_append (by decide) (noNL_append (noNL_digits _) (by decide)))))]
    rw [getLines_append (noNL_append (by decide) (noNL_append (noNL_digits _)
      (noNL_append (by decide) (noNL_append hnenc (noNL_append (by decide)
        (noNL_append (noNL_digits _) (noNL_append (by decide)
          (noNL_append (noNL_digits _) (by decide)))))))))]
    rw [getLines_append (by decide)]
    rw [getLines_append (by decide)]
    rw [getLines_append (by decide)]
    rfl
  have po := fun info : SDPInfo =>
    parseLine_oline info session_id origin_address ha1 ha2
  have pc := fun info : SDPInfo => parseLine_cline info multicast_ip hm1 hm2
  have pm := fun info : SDPInfo => parseLine_mline info port payload_type
  have pr := fun info : SDPInfo =>
    parseLine_rtpmapline info payload_type format.sample_rate format.channels
      (encoding_name format) he1 he2
  simp only [parse]
  rw [hlines]
  simp only [List.foldl_cons, List.foldl_nil, parseLine_vline, po, parseLine_sline,
    pc, parseLine_tline, pm, pr, parseLine_ptimeline, parseLine_refclkline,
    parseLine_mediaclkline]
  rcases encName_mem format with hE | hE | hE
  · simp only [hE, if_true]
    simp only [regenerate, generate, decToNat_decDigits]
    rw [Nat.mod_eq_of_lt hp, Nat.mod_eq_of_lt hpt,
      Nat.mod_eq_of_lt (show format.sample_rate < 2 ^ 32 by omega),
      Nat.mod_eq_of_lt hch]
    simp only [hE]
    rw [show ∀ a b : Nat, encoding_name ⟨a, b, 16⟩ = str "L16" from fun a b => rfl]
  · simp only [hE, if_true]
    rw [if_neg (show ¬(str "L24" = str "L16") from by decide)]
    simp only [regenerate, generate, decToNat_decDigits]
    rw [Nat.mod_eq_of_lt hp, Nat.mod_eq_of_lt hpt,
      Nat.mod_eq_of_lt (show format.sample_rate < 2 ^ 32 by omega),
      Nat.mod_eq_of_lt hch]
    simp only [hE]
    rw [show ∀ a b : Nat, encoding_name ⟨a, b, 24⟩ = str "L24" from fun a b => rfl]
  · simp only [hE, if_true]
    rw [if_neg (show ¬(str "L32" = str "L16") from by decide)]
    rw [if_neg (show ¬(str "L32" = str "L24") from by decide)]
    simp only [regenerate, generate, decToNat_decDigits]
    rw [Nat.mod_eq_of_lt hp, Nat.mod_eq_of_lt hpt,
      Nat.mod_eq_of_lt (show format.sample_rate < 2 ^ 32 by omega),
      Nat.mod_eq_of_lt hch]
    simp only [hE]
    rw [show ∀ a b : Nat, encoding_name ⟨a, b, 32⟩ = str "L32" from fun a b => rfl]

/-- C6 witness: the round-trip at a concrete AES67 session description
(239.69.1.1:5004, payload 97, L24/48000/2). -/
theorem sdp_roundtrip_witness :
    ((str "239.69.1.1" : List Char) ≠ [] ∧
     (∀ c ∈ (str "239.69.1.1" : List Char), isDigitDotC c = true) ∧
     (str "10.0.0.8" : List Char) ≠ [] ∧
     (∀ c ∈ (str "10.0.0.8" : List Char), isSpaceC c = false) ∧
     (∀ c ∈ (str "RPi Stream" : List Char), c ≠ '\n') ∧
     5004 < 2 ^ 16 ∧ 97 < 2 ^ 8 ∧
     ({} : AudioFormat).sample_rate < 2 ^ 31 ∧ ({} : AudioFormat).channels < 2 ^ 8) ∧
    regenerate (parse (generate (str "239.69.1.1") 5004 97 {} (str "RPi Stream")
        12345 (str "10.0.0.8"))) =
      generate (str "239.69.1.1") 5004 97 {} (str "RPi Stream") 12345 (str "10.0.0.8") :=
  ⟨⟨by decide, by decide, by decide, by decide, by decide, by decide, by decide,
    by decide, by decide⟩,
   sdp_roundtrip (str "239.69.1.1") (str "10.0.0.8") (str "RPi Stream") 5004 97 12345 {}
     (by decide) (by decide) (by decide) (by decide) (by decide) (by decide)
     (by decide) (by decide) (by decide)⟩

end RPiAES67
